import Mathlib

/-!
Verification of the keyboard-navigation ("highlight navigator") mixin of the
dialtone-vue component library.

The mixin tracks a highlighted position over an externally rendered DOM list.
We embed it shallowly:

* a DOM element is a pair of an `id` string and a `role` string; the host's
  list element is a flat list of such elements in document order (element
  identity is its position in that list);
* the host reference (`listRef`) may be absent (`none`), matching a missing
  host list element;
* the navigator's reactive data is `NavState`: the `highlightIndex` field
  (a JS number or `undefined`, hence `Option Int`), the `highlightId` field
  (a JS string or `undefined`, hence `Option String`), and the two side-effect
  flags copied from the mixin options;
* configuration records which optional hooks are configured;
* every method returns its new state together with a trace of observable
  events (field mutations, `console.error` diagnostics, the `$nextTick`
  suspension, hook invocations, scroll and focus side effects), so that
  ordering and "fires exactly once" claims are statable.
-/

namespace DialtoneNav

/-- A DOM element, reduced to the two attributes the mixin inspects. -/
structure Elem where
  id : String
  role : String
deriving DecidableEq, Repr

/-- The host side: the list element (`this[listElementKey]()`), absent when the
host supplies no reference, and whether `this[activeItemKey]` resolves to an
element. -/
structure HostD where
  listEl : Option (List Elem)
  activeItem : Bool
deriving DecidableEq, Repr

/-- Mixin options that matter to the verified behaviour: the role used to
match list items, and whether each optional hook is configured. -/
structure Config where
  listItemRole : String
  openMethod : Bool
  afterHighlightMethod : Bool
  beginningOfListMethod : Bool
  endOfListMethod : Bool
deriving DecidableEq, Repr

/-- The mixin's reactive data: `this[indexKey]`, `this[idKey]`, and the two
side-effect flags. `index = none` models the JS value `undefined`. -/
structure NavState where
  index : Option Int
  id : Option String
  scrollToOnHighlight : Bool
  focusOnKeyboardNavigation : Bool
deriving DecidableEq, Repr

/-- Observable events emitted by a method call, in order. -/
inductive Event where
  | openHook
  | setIndex (i : Option Int)
  | setId (s : Option String)
  | logDiag
  | settle
  | afterHighlight (i : Option Int)
  | beginningOfList
  | endOfList
  | scroll
  | focus
deriving DecidableEq, Repr

/-- `listElement.querySelectorAll('[role=r]')`: the role-matched items, in
document order (as element values, used where only counts and ids matter). -/
def roleItems (role : String) : List Elem → List Elem
  | [] => []
  | e :: rest => if e.role = role then e :: roleItems role rest else roleItems role rest

/-- `listElement.querySelectorAll('[role=r]')` as document-order positions,
used where element identity matters (`Array.prototype.indexOf`). -/
def rolePositions (role : String) : List Elem → List Nat
  | [] => []
  | e :: rest =>
    if e.role = role then 0 :: (rolePositions role rest).map (· + 1)
    else (rolePositions role rest).map (· + 1)

/-- `listElement.querySelector('#' + id)`: position of the first element in
document order carrying the id, if any. -/
def querySelectorId (idStr : String) : List Elem → Option Nat
  | [] => none
  | e :: rest =>
    if e.id = idStr then some 0 else (querySelectorId idStr rest).map (· + 1)

/-- `Array.prototype.indexOf`: first index of `v`, `-1` when absent. -/
def jsIndexOf (v : Nat) : List Nat → Int
  | [] => -1
  | x :: rest =>
    if x = v then 0
    else if jsIndexOf v rest = -1 then -1 else jsIndexOf v rest + 1

/-- `_getListElement`: dereferences the host list accessor (the `?.$el`
unwrapping collapses in the model). -/
def _getListElement (host : HostD) : Option (List Elem) := host.listEl

/-- `_itemsLength`: count of role-matched items; `0` plus a `console.error`
diagnostic when the list element is absent. -/
def _itemsLength (cfg : Config) (host : HostD) : Nat × List Event :=
  match _getListElement host with
  | none => (0, [Event.logDiag])
  | some l => ((roleItems cfg.listItemRole l).length, [])

/-- `_getItemIndex(id)`: `undefined` when the list element is absent (bare
`return`, no diagnostic); otherwise `indexOf` of the element found by
`querySelector('#' + id)` within the role-matched items (`-1` when the id is
absent or found on a non-role-matched element). -/
def _getItemIndex (cfg : Config) (host : HostD) (idStr : String) :
    Option Int × List Event :=
  match _getListElement host with
  | none => (none, [])
  | some l =>
    (match querySelectorId idStr l with
     | none => some (-1)
     | some q => some (jsIndexOf q (rolePositions cfg.listItemRole l)), [])

/-- `_getItemId(index)`: `undefined` when the list element is absent (bare
`return`, no diagnostic); otherwise `querySelectorAll(...)[index]?.id`, which
is `undefined` out of range. -/
def _getItemId (cfg : Config) (host : HostD) (i : Int) :
    Option String × List Event :=
  match _getListElement host with
  | none => (none, [])
  | some l =>
    (if i < 0 then none
     else ((roleItems cfg.listItemRole l).get? i.toNat).map Elem.id, [])

/-- `scrollActiveItemIntoViewIfNeeded`: scrolls only when the flag is on and
the active-item accessor resolves. -/
def scrollActiveItemIntoViewIfNeeded (host : HostD) (s : NavState) : List Event :=
  if s.scrollToOnHighlight ∧ host.activeItem then [Event.scroll] else []

/-- `focusActiveItemIfNeeded`: focuses only when the flag is on and the
active-item accessor resolves. -/
def focusActiveItemIfNeeded (host : HostD) (s : NavState) : List Event :=
  if s.focusOnKeyboardNavigation ∧ host.activeItem then [Event.focus] else []

/-- `setHighlightIndex(num)`: stores `num`, stores `_getItemId(num)`, then —
when the item count is non-zero and the after-highlight hook is configured —
awaits `$nextTick` and invokes the hook with `num`. -/
def setHighlightIndex (cfg : Config) (host : HostD) (s : NavState) (num : Int) :
    NavState × List Event :=
  let idRes := _getItemId cfg host num
  let s1 := { s with index := some num, id := idRes.1 }
  let len := _itemsLength cfg host
  let tail :=
    if len.1 ≠ 0 ∧ cfg.afterHighlightMethod = true then
      [Event.settle, Event.afterHighlight (some num)]
    else []
  (s1, [Event.setIndex (some num)] ++ idRes.2 ++ [Event.setId idRes.1] ++ len.2 ++ tail)

/-- `setHighlightId(id)`: stores the id, stores `_getItemIndex(id)`, then —
when the item count is non-zero and the after-highlight hook is configured —
awaits `$nextTick` and invokes the hook with `_getItemIndex(id)`. -/
def setHighlightId (cfg : Config) (host : HostD) (s : NavState) (idStr : String) :
    NavState × List Event :=
  let idxRes := _getItemIndex cfg host idStr
  let s1 := { s with id := some idStr, index := idxRes.1 }
  let len := _itemsLength cfg host
  let tail :=
    if len.1 ≠ 0 ∧ cfg.afterHighlightMethod = true then
      [Event.settle, Event.afterHighlight idxRes.1]
    else []
  (s1, [Event.setId (some idStr)] ++ idxRes.2 ++ [Event.setIndex idxRes.1] ++ len.2 ++ tail)

/-- `onUpKey`: open hook if configured; decrement via `setHighlightIndex` when
`index > 0` (JS comparison: false on `undefined`), otherwise the
beginning-of-list hook if configured; then scroll/focus side effects. -/
def onUpKey (cfg : Config) (host : HostD) (s : NavState) : NavState × List Event :=
  let openEv := if cfg.openMethod then [Event.openHook] else []
  let step :=
    match s.index with
    | some j =>
      if 0 < j then setHighlightIndex cfg host s (j - 1)
      else if cfg.beginningOfListMethod then (s, [Event.beginningOfList]) else (s, [])
    | none =>
      if cfg.beginningOfListMethod then (s, [Event.beginningOfList]) else (s, [])
  (step.1,
    openEv ++ step.2 ++ scrollActiveItemIntoViewIfNeeded host step.1
      ++ focusActiveItemIfNeeded host step.1)

/-- `onDownKey`: open hook if configured; `_itemsLength` is evaluated in the
guard (logging when the list is absent); increment via `setHighlightIndex`
when `index < length - 1` (JS comparison: false on `undefined`), otherwise the
end-of-list hook if configured; then scroll/focus side effects. -/
def onDownKey (cfg : Config) (host : HostD) (s : NavState) : NavState × List Event :=
  let openEv := if cfg.openMethod then [Event.openHook] else []
  let len := _itemsLength cfg host
  let step :=
    match s.index with
    | some j =>
      if j < (len.1 : Int) - 1 then setHighlightIndex cfg host s (j + 1)
      else if cfg.endOfListMethod then (s, [Event.endOfList]) else (s, [])
    | none =>
      if cfg.endOfListMethod then (s, [Event.endOfList]) else (s, [])
  (step.1,
    openEv ++ len.2 ++ step.2 ++ scrollActiveItemIntoViewIfNeeded host step.1
      ++ focusActiveItemIfNeeded host step.1)

/-- `jumpToBeginning`: `setHighlightIndex(0)`. -/
def jumpToBeginning (cfg : Config) (host : HostD) (s : NavState) : NavState × List Event :=
  setHighlightIndex cfg host s 0

/-- `jumpToEnd`: `setHighlightIndex(_itemsLength() - 1)`. -/
def jumpToEnd (cfg : Config) (host : HostD) (s : NavState) : NavState × List Event :=
  let len := _itemsLength cfg host
  let r := setHighlightIndex cfg host s ((len.1 : Int) - 1)
  (r.1, len.2 ++ r.2)

/-- `onHomeKey`: `jumpToBeginning` then scroll/focus side effects. -/
def onHomeKey (cfg : Config) (host : HostD) (s : NavState) : NavState × List Event :=
  let r := jumpToBeginning cfg host s
  (r.1,
    r.2 ++ scrollActiveItemIntoViewIfNeeded host r.1 ++ focusActiveItemIfNeeded host r.1)

/-- `onEndKey`: `jumpToEnd` then scroll/focus side effects. -/
def onEndKey (cfg : Config) (host : HostD) (s : NavState) : NavState × List Event :=
  let r := jumpToEnd cfg host s
  (r.1,
    r.2 ++ scrollActiveItemIntoViewIfNeeded host r.1 ++ focusActiveItemIfNeeded host r.1)

/-- The mixin's `data()` initializer: `index = -1`, `id = ''`, flags from the
options. -/
def initState (scrollFlag focusFlag : Bool) : NavState :=
  { index := some (-1), id := some "", scrollToOnHighlight := scrollFlag,
    focusOnKeyboardNavigation := focusFlag }

/-- `onDownKey` iterated `k` times (state only). -/
def iterDown (cfg : Config) (host : HostD) : Nat → NavState → NavState
  | 0, s => s
  | k + 1, s => iterDown cfg host k (onDownKey cfg host s).1

/-- `onUpKey` iterated `k` times (state only). -/
def iterUp (cfg : Config) (host : HostD) : Nat → NavState → NavState
  | 0, s => s
  | k + 1, s => iterUp cfg host k (onUpKey cfg host s).1

/-- One exposed navigator operation, with its argument where it takes one. -/
inductive Op where
  | upKey
  | downKey
  | homeKey
  | endKey
  | setIdx (i : Int)
  | setIdStr (s : String)
deriving DecidableEq, Repr

/-- Apply one operation (state only). -/
def applyOp (cfg : Config) (host : HostD) (s : NavState) : Op → NavState
  | Op.upKey => (onUpKey cfg host s).1
  | Op.downKey => (onDownKey cfg host s).1
  | Op.homeKey => (onHomeKey cfg host s).1
  | Op.endKey => (onEndKey cfg host s).1
  | Op.setIdx i => (setHighlightIndex cfg host s i).1
  | Op.setIdStr t => (setHighlightId cfg host s t).1

/-- Run a sequence of operations from a state (state only). -/
def run (cfg : Config) (host : HostD) : NavState → List Op → NavState
  | s, [] => s
  | s, op :: rest => run cfg host (applyOp cfg host s op) rest

/-- The identifier of the item the state designates: the id of the role-matched
item at the stored index, if any. -/
def highlightedItem (cfg : Config) (host : HostD) (s : NavState) : Option String :=
  match s.index with
  | some i => (_getItemId cfg host i).1
  | none => none

/-- Recognizer for after-highlight hook invocations in a trace. -/
def isAfterHighlight : Event → Bool
  | Event.afterHighlight _ => true
  | _ => false

/-- The data invariant of C4's provable part: a non-negative stored index
always carries the id of the role-matched item at that position (which is
`undefined` when no item occupies it). -/
def IdMatchesIndex (cfg : Config) (host : HostD) (s : NavState) : Prop :=
  ∀ i : Int, s.index = some i → 0 ≤ i → s.id = (_getItemId cfg host i).1

/-! ### Concrete fixtures used by witnesses and counterexamples -/

/-- A configuration with every optional hook configured and the default role. -/
def cfgAll : Config := ⟨"option", true, true, true, true⟩

/-- A host whose list accessor returns nothing. -/
def hostNone : HostD := ⟨none, false⟩

/-- A three-item list, ids `a`, `b`, `c`, all role `option`. -/
def listABC : List Elem := [⟨"a", "option"⟩, ⟨"b", "option"⟩, ⟨"c", "option"⟩]

/-- Host rendering `listABC`. -/
def hostABC : HostD := ⟨some listABC, false⟩

/-- A list where the id `x` appears first on a non-role-matched element and
again on the sole role-matched item. -/
def listDup : List Elem := [⟨"x", "div"⟩, ⟨"x", "option"⟩]

/-- Host rendering `listDup`. -/
def hostDup : HostD := ⟨some listDup, false⟩

/-- A list element containing no role-matched item. -/
def listNoItems : List Elem := [⟨"z", "div"⟩]

/-- Host rendering `listNoItems`. -/
def hostNoItems : HostD := ⟨some listNoItems, false⟩

/-! ### Unfolding and trace lemmas -/

theorem getItemId_snd (cfg : Config) (host : HostD) (i : Int) :
    (_getItemId cfg host i).2 = [] := by
  unfold _getItemId _getListElement
  cases host.listEl <;> rfl

theorem getItemIndex_snd (cfg : Config) (host : HostD) (t : String) :
    (_getItemIndex cfg host t).2 = [] := by
  unfold _getItemIndex _getListElement
  cases host.listEl <;> rfl

theorem setHighlightIndex_state (cfg : Config) (host : HostD) (s : NavState) (num : Int) :
    (setHighlightIndex cfg host s num).1 =
      { s with index := some num, id := (_getItemId cfg host num).1 } := rfl

theorem setHighlightId_state (cfg : Config) (host : HostD) (s : NavState) (t : String) :
    (setHighlightId cfg host s t).1 =
      { s with index := (_getItemIndex cfg host t).1, id := some t } := rfl

theorem setHighlightIndex_trace (cfg : Config) (host : HostD) (s : NavState) (num : Int) :
    (setHighlightIndex cfg host s num).2 =
      [Event.setIndex (some num), Event.setId (_getItemId cfg host num).1]
        ++ (_itemsLength cfg host).2
        ++ (if (_itemsLength cfg host).1 ≠ 0 ∧ cfg.afterHighlightMethod = true then
              [Event.settle, Event.afterHighlight (some num)]
            else []) := by
  simp only [setHighlightIndex, getItemId_snd]
  rfl

theorem setHighlightId_trace (cfg : Config) (host : HostD) (s : NavState) (t : String) :
    (setHighlightId cfg host s t).2 =
      [Event.setId (some t), Event.setIndex (_getItemIndex cfg host t).1]
        ++ (_itemsLength cfg host).2
        ++ (if (_itemsLength cfg host).1 ≠ 0 ∧ cfg.afterHighlightMethod = true then
              [Event.settle, Event.afterHighlight (_getItemIndex cfg host t).1]
            else []) := by
  simp only [setHighlightId, getItemIndex_snd]
  rfl

theorem itemsLength_snd (cfg : Config) (host : HostD) :
    (_itemsLength cfg host).2 = if host.listEl = none then [Event.logDiag] else [] := by
  unfold _itemsLength _getListElement
  cases host.listEl <;> simp

theorem endOfList_not_mem_setHighlightIndex (cfg : Config) (host : HostD) (s : NavState)
    (num : Int) : Event.endOfList ∉ (setHighlightIndex cfg host s num).2 := by
  rw [setHighlightIndex_trace, itemsLength_snd]
  split <;> split <;> simp

theorem beginningOfList_not_mem_setHighlightIndex (cfg : Config) (host : HostD) (s : NavState)
    (num : Int) : Event.beginningOfList ∉ (setHighlightIndex cfg host s num).2 := by
  rw [setHighlightIndex_trace, itemsLength_snd]
  split <;> split <;> simp

theorem mem_scrollActive (host : HostD) (s : NavState) (ev : Event)
    (h : ev ∈ scrollActiveItemIntoViewIfNeeded host s) : ev = Event.scroll := by
  unfold scrollActiveItemIntoViewIfNeeded at h
  split at h <;> simp_all

theorem mem_focusActive (host : HostD) (s : NavState) (ev : Event)
    (h : ev ∈ focusActiveItemIfNeeded host s) : ev = Event.focus := by
  unfold focusActiveItemIfNeeded at h
  split at h <;> simp_all

/-- State component of `onUpKey`, by case on the current index. -/
theorem onUpKey_state (cfg : Config) (host : HostD) (s : NavState) (j : Int)
    (hj : s.index = some j) :
    (onUpKey cfg host s).1 =
      if 0 < j then
        { s with index := some (j - 1), id := (_getItemId cfg host (j - 1)).1 }
      else s := by
  simp only [onUpKey, hj]
  split
  · exact setHighlightIndex_state cfg host s (j - 1)
  · split <;> rfl

/-- `onUpKey` leaves the state unchanged when the stored index is `undefined`. -/
theorem onUpKey_state_undef (cfg : Config) (host : HostD) (s : NavState)
    (hj : s.index = none) : (onUpKey cfg host s).1 = s := by
  simp only [onUpKey, hj]
  split <;> rfl

/-- Number of beginning-of-list hook invocations in one `onUpKey` call. -/
theorem onUpKey_beginCount (cfg : Config) (host : HostD) (s : NavState) (j : Int)
    (hj : s.index = some j) :
    ((onUpKey cfg host s).2).count Event.beginningOfList =
      if 0 < j then 0 else if cfg.beginningOfListMethod then 1 else 0 := by
  simp only [onUpKey, hj]
  rw [List.count_append, List.count_append, List.count_append]
  have hopen : (if cfg.openMethod = true then [Event.openHook] else []).count
      Event.beginningOfList = 0 := by split <;> rfl
  have hscroll : ∀ s' : NavState,
      (scrollActiveItemIntoViewIfNeeded host s').count Event.beginningOfList = 0 := by
    intro s'
    exact List.count_eq_zero.mpr (fun h => by simpa using mem_scrollActive host s' _ h)
  have hfocus : ∀ s' : NavState,
      (focusActiveItemIfNeeded host s').count Event.beginningOfList = 0 := by
    intro s'
    exact List.count_eq_zero.mpr (fun h => by simpa using mem_focusActive host s' _ h)
  rw [hopen, hscroll, hfocus]
  split
  · rw [List.count_eq_zero.mpr (beginningOfList_not_mem_setHighlightIndex cfg host s (j - 1))]
  · split <;> simp

/-- State component of `onDownKey` over a present host list, by case on the
current index. -/
theorem onDownKey_state (cfg : Config) (host : HostD) (l : List Elem) (s : NavState) (j : Int)
    (hl : host.listEl = some l) (hj : s.index = some j) :
    (onDownKey cfg host s).1 =
      if j < ((roleItems cfg.listItemRole l).length : Int) - 1 then
        { s with index := some (j + 1), id := (_getItemId cfg host (j + 1)).1 }
      else s := by
  simp only [onDownKey, hj, _itemsLength, _getListElement, hl]
  split
  · exact setHighlightIndex_state cfg host s (j + 1)
  · split <;> rfl

/-- Number of end-of-list hook invocations in one `onDownKey` call over a
present host list. -/
theorem onDownKey_endCount (cfg : Config) (host : HostD) (l : List Elem) (s : NavState) (j : Int)
    (hl : host.listEl = some l) (hj : s.index = some j) :
    ((onDownKey cfg host s).2).count Event.endOfList =
      if j < ((roleItems cfg.listItemRole l).length : Int) - 1 then 0
      else if cfg.endOfListMethod then 1 else 0 := by
  simp only [onDownKey, hj, _itemsLength, _getListElement, hl]
  rw [List.count_append, List.count_append, List.count_append, List.count_append]
  have hopen : (if cfg.openMethod = true then [Event.openHook] else []).count
      Event.endOfList = 0 := by split <;> rfl
  have hscroll : ∀ s' : NavState,
      (scrollActiveItemIntoViewIfNeeded host s').count Event.endOfList = 0 := by
    intro s'
    exact List.count_eq_zero.mpr (fun h => by simpa using mem_scrollActive host s' _ h)
  have hfocus : ∀ s' : NavState,
      (focusActiveItemIfNeeded host s').count Event.endOfList = 0 := by
    intro s'
    exact List.count_eq_zero.mpr (fun h => by simpa using mem_focusActive host s' _ h)
  rw [hopen, hscroll, hfocus]
  split
  · rw [List.count_eq_zero.mpr (endOfList_not_mem_setHighlightIndex cfg host s (j + 1))]
    simp
  · split <;> simp

/-- Index evolution of iterated `onUpKey`: unchanged from a non-positive
start, otherwise decremented once per call and clamped at `0`. -/
theorem iterUp_index (cfg : Config) (host : HostD) :
    ∀ (k : Nat) (s : NavState) (j : Int), s.index = some j →
      (iterUp cfg host k s).index = some (if j ≤ 0 then j else max (j - k) 0) := by
  intro k
  induction k with
  | zero =>
    intro s j hj
    simp only [iterUp, hj, Option.some.injEq]
    split <;> omega
  | succ k ih =>
    intro s j hj
    simp only [iterUp]
    have hstate := onUpKey_state cfg host s j hj
    by_cases hjpos : 0 < j
    · rw [hstate, if_pos hjpos]
      rw [ih _ (j - 1) rfl]
      simp only [Option.some.injEq]
      split_ifs <;> omega
    · rw [hstate, if_neg hjpos]
      rw [ih s j hj]
      simp only [Option.some.injEq]
      split_ifs <;> omega

/-- Index evolution of iterated `onDownKey` over a present host list with `N`
role-matched items, from a start not beyond `N - 1`: incremented once per call
and clamped at `N - 1`. -/
theorem iterDown_index (cfg : Config) (host : HostD) (l : List Elem) (N : Nat)
    (hl : host.listEl = some l) (hN : (roleItems cfg.listItemRole l).length = N) :
    ∀ (k : Nat) (s : NavState) (j : Int), s.index = some j → j ≤ (N : Int) - 1 →
      (iterDown cfg host k s).index = some (min (j + k) ((N : Int) - 1)) := by
  intro k
  induction k with
  | zero =>
    intro s j hj hle
    simp only [iterDown, hj, Option.some.injEq]
    omega
  | succ k ih =>
    intro s j hj hle
    simp only [iterDown]
    have hstate := onDownKey_state cfg host l s j hl hj
    rw [hN] at hstate
    by_cases hjlt : j < (N : Int) - 1
    · rw [hstate, if_pos hjlt]
      rw [ih _ (j + 1) rfl (by omega)]
      simp only [Option.some.injEq]
      omega
    · rw [hstate, if_neg hjlt]
      rw [ih s j hj hle]
      simp only [Option.some.injEq]
      omega

/-- C2: over a host list of `N` role-matched items, iterated `onDownKey` from
the initial `index = -1` advances the index by one per call, saturating at
`N - 1`; the configured end-of-list hook fires exactly once on each call made
while the index is already `N - 1` (i.e. from the `N`-th call on) and never
before. -/
theorem c2_moveDown_saturation (cfg : Config) (host : HostD) (l : List Elem) (N : Nat)
    (sc fo : Bool) (hl : host.listEl = some l)
    (hN : (roleItems cfg.listItemRole l).length = N)
    (hhook : cfg.endOfListMethod = true) :
    ∀ k : Nat,
      (iterDown cfg host k (initState sc fo)).index = some (min (k : Int) (N : Int) - 1) ∧
      ((onDownKey cfg host (iterDown cfg host k (initState sc fo))).2).count Event.endOfList
        = if N ≤ k then 1 else 0 := by
  intro k
  have hidx : (iterDown cfg host k (initState sc fo)).index
      = some (min (k : Int) (N : Int) - 1) := by
    rw [iterDown_index cfg host l N hl hN k (initState sc fo) (-1) rfl (by omega)]
    simp only [Option.some.injEq]
    omega
  refine ⟨hidx, ?_⟩
  rw [onDownKey_endCount cfg host l _ _ hl hidx, hN, hhook]
  rw [show (if true = true then (1 : Nat) else 0) = 1 from rfl]
  split_ifs <;> omega

/-- C2 witness: on the three-item list, the index after two `onDownKey` calls
is `1`, and the fourth call (made at the saturated index `2`) fires the
end-of-list hook exactly once. -/
theorem c2_moveDown_saturation_witness :
    (iterDown cfgAll hostABC 2 (initState true false)).index = some 1 ∧
    ((onDownKey cfgAll hostABC (iterDown cfgAll hostABC 3 (initState true false))).2).count
        Event.endOfList = 1 := by
  have h := c2_moveDown_saturation cfgAll hostABC listABC 3 true false rfl rfl rfl
  constructor
  · rw [(h 2).1]
    norm_num
  · rw [(h 3).2]
    norm_num

/-- C3: `onUpKey` decrements the index when it is positive (no hook), leaves
the state unchanged when the index is at or below `0` while firing the
configured beginning-of-list hook exactly once; iterated calls decrement once
per call and clamp at `0` (a start of `-1`, the idle state, stays at `-1`),
and each call made while the index is at or below `0` fires the hook exactly
once. -/
theorem c3_moveUp_saturation (cfg : Config) (host : HostD) (s : NavState) (j : Int)
    (hj : s.index = some j) (hcfg : cfg.beginningOfListMethod = true) :
    (0 < j → (onUpKey cfg host s).1.index = some (j - 1) ∧
        ((onUpKey cfg host s).2).count Event.beginningOfList = 0) ∧
    (j ≤ 0 → (onUpKey cfg host s).1 = s ∧
        ((onUpKey cfg host s).2).count Event.beginningOfList = 1) ∧
    (∀ k : Nat, (iterUp cfg host k s).index =
        some (if j ≤ 0 then j else max (j - k) 0)) ∧
    (∀ k : Nat, ((onUpKey cfg host (iterUp cfg host k s)).2).count Event.beginningOfList =
        if (if j ≤ 0 then j else max (j - (k : Int)) 0) ≤ 0 then 1 else 0) := by
  refine ⟨?_, ?_, fun k => iterUp_index cfg host k s j hj, ?_⟩
  · intro hpos
    constructor
    · rw [onUpKey_state cfg host s j hj, if_pos hpos]
    · rw [onUpKey_beginCount cfg host s j hj, if_pos hpos]
  · intro hle
    constructor
    · rw [onUpKey_state cfg host s j hj, if_neg (by omega)]
    · rw [onUpKey_beginCount cfg host s j hj, if_neg (by omega), hcfg]
      rw [show (if true = true then (1 : Nat) else 0) = 1 from rfl]
  · intro k
    rw [onUpKey_beginCount cfg host _ _ (iterUp_index cfg host k s j hj), hcfg]
    rw [show (if true = true then (1 : Nat) else 0) = 1 from rfl]
    set m : Int := if j ≤ 0 then j else max (j - (k : Int)) 0 with hm
    split_ifs <;> omega

/-- C3 witness: from the idle index `-1` on the three-item list, one `onUpKey`
call leaves the state unchanged and fires the beginning-of-list hook once. -/
theorem c3_moveUp_saturation_witness :
    (onUpKey cfgAll hostABC (initState true false)).1 = initState true false ∧
    ((onUpKey cfgAll hostABC (initState true false)).2).count Event.beginningOfList = 1 := by
  have h := c3_moveUp_saturation cfgAll hostABC (initState true false) (-1) rfl rfl
  exact h.2.1 (by norm_num)

/-- The resolution helpers on an absent host reference. -/
theorem getItemId_none (cfg : Config) (host : HostD) (i : Int)
    (hnone : host.listEl = none) : (_getItemId cfg host i).1 = none := by
  unfold _getItemId _getListElement
  rw [hnone]

theorem getItemIndex_none (cfg : Config) (host : HostD) (t : String)
    (hnone : host.listEl = none) : (_getItemIndex cfg host t).1 = none := by
  unfold _getItemIndex _getListElement
  rw [hnone]

theorem itemsLength_none (cfg : Config) (host : HostD)
    (hnone : host.listEl = none) : _itemsLength cfg host = (0, [Event.logDiag]) := by
  unfold _itemsLength _getListElement
  rw [hnone]

/-- C1 counterexample: with the host list accessor returning nothing,
`onHomeKey` (via `jumpToBeginning`/`setHighlightIndex(0)`) still overwrites
the stored index from the idle `-1` to `0` and the stored id from `''` to
`undefined`, refuting "each navigation operation leaves the stored index and
id fields unchanged". -/
theorem c1_counterexample :
    (initState true false).index = some (-1) ∧
    (initState true false).id = some "" ∧
    (onHomeKey cfgAll hostNone (initState true false)).1.index = some 0 ∧
    (onHomeKey cfgAll hostNone (initState true false)).1.id = none :=
  ⟨rfl, rfl, rfl, rfl⟩

/-- C1 (amended): when the host list accessor returns nothing, no operation
throws (all are total functions), the item count is treated as `0` with a
diagnostic logged whenever it is queried, and `onUpKey` from a non-positive
index and `onDownKey` from an index at or above `-1` (in particular the idle
state) leave the stored index and id unchanged, at most invoking the boundary
hooks; however `onHomeKey`, `onEndKey`, `setHighlightIndex` and
`setHighlightId` still overwrite the stored fields: `setHighlightIndex(i)`
stores index `i` with an undefined id (so `onHomeKey` stores `0` and
`onEndKey` stores `-1`), and `setHighlightId(t)` stores id `t` with an
undefined index. -/
theorem c1_missing_host (cfg : Config) (host : HostD) (s : NavState)
    (hnone : host.listEl = none) :
    _itemsLength cfg host = (0, [Event.logDiag]) ∧
    (∀ j : Int, s.index = some j → j ≤ 0 →
      (onUpKey cfg host s).1.index = s.index ∧ (onUpKey cfg host s).1.id = s.id) ∧
    (∀ j : Int, s.index = some j → -1 ≤ j →
      (onDownKey cfg host s).1.index = s.index ∧ (onDownKey cfg host s).1.id = s.id) ∧
    ((onHomeKey cfg host s).1.index = some 0 ∧ (onHomeKey cfg host s).1.id = none) ∧
    ((onEndKey cfg host s).1.index = some (-1) ∧ (onEndKey cfg host s).1.id = none) ∧
    (∀ i : Int, (setHighlightIndex cfg host s i).1 =
      { s with index := some i, id := none }) ∧
    (∀ t : String, (setHighlightId cfg host s t).1 =
      { s with index := none, id := some t }) := by
  have hid : ∀ i : Int, (_getItemId cfg host i).1 = none :=
    fun i => getItemId_none cfg host i hnone
  have hidx : ∀ t : String, (_getItemIndex cfg host t).1 = none :=
    fun t => getItemIndex_none cfg host t hnone
  refine ⟨itemsLength_none cfg host hnone, ?_, ?_, ?_, ?_, ?_, ?_⟩
  · intro j hj hle
    rw [onUpKey_state cfg host s j hj, if_neg (by omega)]
    exact ⟨rfl, rfl⟩
  · intro j hj hge
    simp only [onDownKey, hj, itemsLength_none cfg host hnone]
    rw [if_neg (by norm_num; omega)]
    split <;> exact ⟨hj, rfl⟩
  · constructor
    · rfl
    · show (_getItemId cfg host 0).1 = none
      exact hid 0
  · constructor
    · simp only [onEndKey, jumpToEnd, itemsLength_none cfg host hnone]
      rfl
    · show (_getItemId cfg host _).1 = none
      exact hid _
  · intro i
    rw [setHighlightIndex_state, hid i]
  · intro t
    rw [setHighlightId_state, hidx t]

/-- C1 witness: instance of the amended statement at the idle state — the item
count is `0` with a diagnostic, `onDownKey` leaves the index at `-1`, and
`setHighlightId` stores an undefined index. -/
theorem c1_missing_host_witness :
    _itemsLength cfgAll hostNone = (0, [Event.logDiag]) ∧
    (onDownKey cfgAll hostNone (initState true false)).1.index = some (-1) ∧
    (setHighlightId cfgAll hostNone (initState true false) "a").1.index = none := by
  have h := c1_missing_host cfgAll hostNone (initState true false) rfl
  refine ⟨h.1, ?_, ?_⟩
  · have := (h.2.2.1 (-1) rfl (by norm_num)).1
    rw [this]
    rfl
  · rw [h.2.2.2.2.2.2 "a"]

/-- C6: immediately after `setHighlightIndex(i)` for an in-bounds position
`i`, the stored id equals the result of `_getItemId(i)` queried on the same
unchanged list. -/
theorem c6_setHighlightIndex_id (cfg : Config) (host : HostD) (s : NavState) (i : Int)
    (_h0 : 0 ≤ i) (_hlt : i < ((_itemsLength cfg host).1 : Int)) :
    (setHighlightIndex cfg host s i).1.id = (_getItemId cfg host i).1 := rfl

/-- C6 witness at position `1` of the three-item list. -/
theorem c6_setHighlightIndex_id_witness :
    (setHighlightIndex cfgAll hostABC (initState true false) 1).1.id
      = (_getItemId cfgAll hostABC 1).1 :=
  c6_setHighlightIndex_id cfgAll hostABC (initState true false) 1 (by norm_num) (by decide)

/-- C7: with the after-highlight hook configured and a non-empty item list,
`setHighlightIndex(i)` emits exactly the trace index-mutation, id-mutation,
rendering-settle, hook-invocation-with-argument-`i`: the hook fires exactly
once, strictly after both field mutations and after the single settle point,
and receives the target index `i`; with the hook unconfigured or an empty (or
absent) list, no hook invocation occurs. -/
theorem c7_afterHighlight (cfg : Config) (host : HostD) (s : NavState) (i : Int) :
    (cfg.afterHighlightMethod = true → 0 < (_itemsLength cfg host).1 →
      (setHighlightIndex cfg host s i).2 =
        [Event.setIndex (some i), Event.setId (_getItemId cfg host i).1,
         Event.settle, Event.afterHighlight (some i)] ∧
      (setHighlightIndex cfg host s i).1 =
        { s with index := some i, id := (_getItemId cfg host i).1 }) ∧
    ((cfg.afterHighlightMethod = false ∨ (_itemsLength cfg host).1 = 0) →
      ((setHighlightIndex cfg host s i).2).countP isAfterHighlight = 0) := by
  constructor
  · intro hcfg hlen
    refine ⟨?_, setHighlightIndex_state cfg host s i⟩
    rw [setHighlightIndex_trace, itemsLength_snd]
    have hsome : ¬host.listEl = none := by
      intro h
      rw [itemsLength_none cfg host h] at hlen
      exact absurd hlen (by norm_num)
    rw [if_neg hsome, if_pos ⟨by omega, hcfg⟩]
    simp
  · intro hdis
    rw [setHighlightIndex_trace, itemsLength_snd]
    have htail : ¬((_itemsLength cfg host).1 ≠ 0 ∧ cfg.afterHighlightMethod = true) := by
      rcases hdis with h | h
      · rintro ⟨-, h2⟩
        rw [h] at h2
        cases h2
      · rintro ⟨h1, -⟩
        exact h1 h
    rw [if_neg htail]
    split <;> rfl

/-- C7 witness: the exact trace at index `1` of the three-item list. -/
theorem c7_afterHighlight_witness :
    (setHighlightIndex cfgAll hostABC (initState true false) 1).2 =
      [Event.setIndex (some 1), Event.setId (_getItemId cfgAll hostABC 1).1,
       Event.settle, Event.afterHighlight (some 1)] :=
  ((c7_afterHighlight cfgAll hostABC (initState true false) 1).1 rfl (by decide)).1

/-- C8 counterexample: with the host reference absent, `_getItemIndex` and
`_getItemId` do return `undefined` without throwing, but they emit no
diagnostic at all (the claim says they log one); only `_itemsLength` logs. -/
theorem c8_counterexample :
    (_getItemIndex cfgAll hostNone "a").2.count Event.logDiag = 0 ∧
    (_getItemId cfgAll hostNone 0).2.count Event.logDiag = 0 ∧
    (_getItemIndex cfgAll hostNone "a").1 = none ∧
    (_getItemId cfgAll hostNone 0).1 = none :=
  ⟨rfl, rfl, rfl, rfl⟩

/-- C8 (amended): with the host reference absent, `_getItemIndex` and
`_getItemId` return `undefined` without throwing and without logging any
diagnostic, while `_itemsLength` returns `0` and logs one diagnostic. -/
theorem c8_missing_host_resolution (cfg : Config) (host : HostD) (t : String) (i : Int)
    (hnone : host.listEl = none) :
    _getItemIndex cfg host t = (none, []) ∧
    _getItemId cfg host i = (none, []) ∧
    _itemsLength cfg host = (0, [Event.logDiag]) := by
  unfold _getItemIndex _getItemId _itemsLength _getListElement
  rw [hnone]
  exact ⟨rfl, rfl, rfl⟩

/-- C8 witness at a concrete id and index. -/
theorem c8_missing_host_resolution_witness :
    _getItemIndex cfgAll hostNone "b" = (none, []) ∧
    _getItemId cfgAll hostNone 5 = (none, []) ∧
    _itemsLength cfgAll hostNone = (0, [Event.logDiag]) :=
  c8_missing_host_resolution cfgAll hostNone "b" 5 rfl

/-- C9: `setHighlightIndex` performs no range validation: it stores exactly
the given index, unclamped, and the stored id is `undefined` whenever no
role-matched item occupies that position (negative index, index at or beyond
the item count, or absent list). -/
theorem c9_no_range_validation (cfg : Config) (host : HostD) (s : NavState) (i : Int) :
    (setHighlightIndex cfg host s i).1.index = some i ∧
    (∀ l : List Elem, host.listEl = some l →
      (i < 0 ∨ ((roleItems cfg.listItemRole l).length : Int) ≤ i) →
      (setHighlightIndex cfg host s i).1.id = none) ∧
    (host.listEl = none → (setHighlightIndex cfg host s i).1.id = none) := by
  refine ⟨rfl, ?_, ?_⟩
  · intro l hl hrange
    rw [setHighlightIndex_state]
    show (_getItemId cfg host i).1 = none
    simp only [_getItemId, _getListElement, hl]
    rcases hrange with h | h
    · rw [if_pos h]
    · rw [if_neg (by omega), List.get?_eq_none.mpr (by omega), Option.map_none']
  · intro hnone
    rw [setHighlightIndex_state]
    exact getItemId_none cfg host i hnone

/-- C9 witness: index `5` on the three-item list is stored unclamped with an
undefined id. -/
theorem c9_no_range_validation_witness :
    (setHighlightIndex cfgAll hostABC (initState true false) 5).1.index = some 5 ∧
    (setHighlightIndex cfgAll hostABC (initState true false) 5).1.id = none := by
  have h := c9_no_range_validation cfgAll hostABC (initState true false) 5
  exact ⟨h.1, h.2.1 listABC rfl (Or.inr (by decide))⟩

/-- C10 counterexample: on a present list element with zero role-matched
items, `onDownKey` from stored index `-2` (reachable through the unvalidated
`setHighlightIndex`) changes the index to `-1` and fires no end-of-list hook,
refuting "every onDownKey call leaves the stored index and id unchanged and
invokes the configured end-of-list hook". -/
theorem c10_counterexample :
    (onDownKey cfgAll hostNoItems ⟨some (-2), none, true, false⟩).1.index = some (-1) ∧
    ((onDownKey cfgAll hostNoItems ⟨some (-2), none, true, false⟩).2).count Event.endOfList
      = 0 :=
  ⟨rfl, rfl⟩

/-- C10 (amended): on a present list element with zero role-matched items,
every `onDownKey` call from an index at or above `-1` — in particular from the
idle state, where no item has ever been highlighted — leaves the state
unchanged and invokes the configured end-of-list hook exactly once (from an
index below `-1` the call instead increments the index and fires no hook). -/
theorem c10_empty_list_moveDown (cfg : Config) (host : HostD) (l : List Elem) (s : NavState)
    (j : Int) (hl : host.listEl = some l) (hno : roleItems cfg.listItemRole l = [])
    (hhook : cfg.endOfListMethod = true) (hj : s.index = some j) (hge : -1 ≤ j) :
    (onDownKey cfg host s).1 = s ∧
    ((onDownKey cfg host s).2).count Event.endOfList = 1 := by
  have hstate := onDownKey_state cfg host l s j hl hj
  rw [hno] at hstate
  have hcount := onDownKey_endCount cfg host l s j hl hj
  rw [hno] at hcount
  have hcond : ¬(j < ((([] : List Elem).length : Nat) : Int) - 1) := by
    simp only [List.length_nil]
    omega
  constructor
  · rw [hstate, if_neg hcond]
  · rw [hcount, if_neg hcond, hhook,
      show (if true = true then (1 : Nat) else 0) = 1 from rfl]

/-- C10 witness: from the idle state (id still `''`, nothing ever
highlighted), `onDownKey` on the item-less list fires the end-of-list hook
once and changes nothing. -/
theorem c10_empty_list_moveDown_witness :
    (onDownKey cfgAll hostNoItems (initState true false)).1 = initState true false ∧
    ((onDownKey cfgAll hostNoItems (initState true false)).2).count Event.endOfList = 1 :=
  c10_empty_list_moveDown cfgAll hostNoItems listNoItems (initState true false) (-1)
    rfl rfl rfl rfl (by norm_num)

/-! ### Position and identity lemmas for the DOM queries -/

/-- Reading a role-query position through the list agrees with reading the
role-matched items directly. -/
theorem rolePositions_get?_bind (role : String) :
    ∀ (l : List Elem) (k : Nat),
      ((rolePositions role l).get? k).bind (fun q => l.get? q)
        = (roleItems role l).get? k := by
  intro l
  induction l with
  | nil => intro k; rfl
  | cons e rest ih =>
    intro k
    by_cases hrole : e.role = role
    · simp only [rolePositions, roleItems, if_pos hrole]
      cases k with
      | zero => rfl
      | succ k =>
        show (((rolePositions role rest).map (· + 1)).get? k).bind (fun q => (e :: rest).get? q)
            = (roleItems role rest).get? k
        rw [List.get?_map, ← ih k]
        cases (rolePositions role rest).get? k <;> rfl
    · simp only [rolePositions, roleItems, if_neg hrole]
      rw [List.get?_map, ← ih k]
      cases (rolePositions role rest).get? k <;> rfl

/-- Role-query positions are pairwise distinct (each element occurs once in
document order). -/
theorem rolePositions_nodup (role : String) :
    ∀ l : List Elem, (rolePositions role l).Nodup := by
  intro l
  induction l with
  | nil => exact List.nodup_nil
  | cons e rest ih =>
    have hmap : ((rolePositions role rest).map (· + 1)).Nodup :=
      ih.map (fun a b h => by omega)
    by_cases hrole : e.role = role
    · simp only [rolePositions, if_pos hrole]
      exact List.nodup_cons.mpr ⟨by simp, hmap⟩
    · simp only [rolePositions, if_neg hrole]
      exact hmap

/-- The position returned by an id query carries an element with that id. -/
theorem querySelectorId_spec (idStr : String) :
    ∀ (l : List Elem) (q : Nat), querySelectorId idStr l = some q →
      ∃ e, l.get? q = some e ∧ e.id = idStr := by
  intro l
  induction l with
  | nil => intro q h; cases h
  | cons e rest ih =>
    intro q h
    simp only [querySelectorId] at h
    by_cases hid : e.id = idStr
    · rw [if_pos hid] at h
      injection h with h1
      subst h1
      exact ⟨e, rfl, hid⟩
    · rw [if_neg hid] at h
      rcases Option.map_eq_some'.mp h with ⟨q', hq', rfl⟩
      obtain ⟨f, hf, hfid⟩ := ih q' hq'
      exact ⟨f, by simpa using hf, hfid⟩

/-- `jsIndexOf` never returns below `-1`. -/
theorem jsIndexOf_ge (v : Nat) : ∀ xs : List Nat, -1 ≤ jsIndexOf v xs := by
  intro xs
  induction xs with
  | nil => norm_num [jsIndexOf]
  | cons x rest ih =>
    simp only [jsIndexOf]
    split_ifs <;> omega

/-- On a duplicate-free list, `jsIndexOf` recovers the position of a stored
value. -/
theorem jsIndexOf_nodup (v : Nat) :
    ∀ (xs : List Nat) (k : Nat), xs.Nodup → xs.get? k = some v →
      jsIndexOf v xs = (k : Int) := by
  intro xs
  induction xs with
  | nil => intro k _ h; cases h
  | cons x rest ih =>
    intro k hnd hk
    cases k with
    | zero =>
      injection hk with h1
      simp [jsIndexOf, h1]
    | succ k =>
      have hkrest : rest.get? k = some v := by simpa using hk
      have hvmem : v ∈ rest := List.get?_mem hkrest
      have hxv : ¬x = v := by
        rintro rfl
        exact (List.nodup_cons.mp hnd).1 hvmem
      have hrest := ih k (List.nodup_cons.mp hnd).2 hkrest
      simp only [jsIndexOf, if_neg hxv]
      rw [hrest, if_neg (by omega)]
      omega

/-- A non-negative `jsIndexOf` result points back at the searched value. -/
theorem jsIndexOf_get? (v : Nat) :
    ∀ (xs : List Nat) (c : Int), jsIndexOf v xs = c → 0 ≤ c →
      xs.get? c.toNat = some v := by
  intro xs
  induction xs with
  | nil =>
    intro c h h0
    rw [jsIndexOf] at h
    omega
  | cons x rest ih =>
    intro c h h0
    simp only [jsIndexOf] at h
    by_cases hxv : x = v
    · rw [if_pos hxv] at h
      subst hxv
      have hc : c = 0 := by omega
      subst hc
      rfl
    · rw [if_neg hxv] at h
      by_cases hnone : jsIndexOf v rest = -1
      · rw [if_pos hnone] at h
        omega
      · rw [if_neg hnone] at h
        have hge := jsIndexOf_ge v rest
        have hrest := ih (jsIndexOf v rest) rfl (by omega)
        have hc : c.toNat = (jsIndexOf v rest).toNat + 1 := by omega
        rw [hc]
        simpa using hrest

/-- Value of `_getItemIndex` when the id query finds an element. -/
theorem getItemIndex_found (cfg : Config) (host : HostD) (l : List Elem) (t : String)
    (p : Nat) (hl : host.listEl = some l) (hq : querySelectorId t l = some p) :
    (_getItemIndex cfg host t).1
      = some (jsIndexOf p (rolePositions cfg.listItemRole l)) := by
  simp only [_getItemIndex, _getListElement, hl, hq]

/-- Value of `_getItemIndex` when the id query finds nothing. -/
theorem getItemIndex_notfound (cfg : Config) (host : HostD) (l : List Elem) (t : String)
    (hl : host.listEl = some l) (hq : querySelectorId t l = none) :
    (_getItemIndex cfg host t).1 = some (-1) := by
  simp only [_getItemIndex, _getListElement, hl, hq]

/-- Value of `_getItemId` over a present list. -/
theorem getItemId_present (cfg : Config) (host : HostD) (l : List Elem) (i : Int)
    (hl : host.listEl = some l) :
    (_getItemId cfg host i).1 =
      if i < 0 then none
      else ((roleItems cfg.listItemRole l).get? i.toNat).map Elem.id := by
  simp only [_getItemId, _getListElement, hl]

/-- `_getItemId` is `undefined` at any negative index. -/
theorem getItemId_neg (cfg : Config) (host : HostD) (i : Int) (hi : i < 0) :
    (_getItemId cfg host i).1 = none := by
  unfold _getItemId _getListElement
  cases host.listEl with
  | none => rfl
  | some l => simp only [if_pos hi]

/-- When `_getItemIndex` resolves an id to a non-negative position, the
role-matched item at that position carries exactly that id. -/
theorem getItemIndex_getItemId (cfg : Config) (host : HostD) (l : List Elem) (t : String)
    (c : Int) (hl : host.listEl = some l)
    (hc : (_getItemIndex cfg host t).1 = some c) (h0 : 0 ≤ c) :
    (_getItemId cfg host c).1 = some t := by
  cases hq : querySelectorId t l with
  | none =>
    rw [getItemIndex_notfound cfg host l t hl hq] at hc
    injection hc with h1
    omega
  | some q =>
    rw [getItemIndex_found cfg host l t q hl hq] at hc
    injection hc with h1
    obtain ⟨e, he, heid⟩ := querySelectorId_spec t l q hq
    have hpos := jsIndexOf_get? q (rolePositions cfg.listItemRole l) c h1 h0
    have hrole := rolePositions_get?_bind cfg.listItemRole l c.toNat
    rw [hpos] at hrole
    simp only [Option.some_bind] at hrole
    rw [getItemId_present cfg host l c hl, if_neg (by omega), ← hrole, he,
      Option.map_some', heid]

/-! ### The reachable-state invariant -/

theorem setHighlightIndex_invariant (cfg : Config) (host : HostD) (s : NavState)
    (num : Int) : IdMatchesIndex cfg host (setHighlightIndex cfg host s num).1 := by
  intro i hi h0
  have hnum : some num = some i := hi
  injection hnum with hnum
  subst hnum
  rfl

theorem setHighlightId_invariant (cfg : Config) (host : HostD) (l : List Elem)
    (s : NavState) (t : String) (hl : host.listEl = some l) :
    IdMatchesIndex cfg host (setHighlightId cfg host s t).1 := by
  intro i hi h0
  have hidx : (_getItemIndex cfg host t).1 = some i := hi
  exact (getItemIndex_getItemId cfg host l t i hl hidx h0).symm

/-- `onDownKey` leaves the state unchanged when the stored index is
`undefined`. -/
theorem onDownKey_state_undef (cfg : Config) (host : HostD) (s : NavState)
    (hj : s.index = none) : (onDownKey cfg host s).1 = s := by
  simp only [onDownKey, hj]
  split <;> rfl

theorem applyOp_invariant (cfg : Config) (host : HostD) (l : List Elem) (s : NavState)
    (op : Op) (hl : host.listEl = some l) (hs : IdMatchesIndex cfg host s) :
    IdMatchesIndex cfg host (applyOp cfg host s op) := by
  cases op with
  | upKey =>
    show IdMatchesIndex cfg host (onUpKey cfg host s).1
    cases hidx : s.index with
    | none => rw [onUpKey_state_undef cfg host s hidx]; exact hs
    | some j =>
      rw [onUpKey_state cfg host s j hidx]
      split
      · exact setHighlightIndex_invariant cfg host s (j - 1)
      · exact hs
  | downKey =>
    show IdMatchesIndex cfg host (onDownKey cfg host s).1
    cases hidx : s.index with
    | none => rw [onDownKey_state_undef cfg host s hidx]; exact hs
    | some j =>
      rw [onDownKey_state cfg host l s j hl hidx]
      split
      · exact setHighlightIndex_invariant cfg host s (j + 1)
      · exact hs
  | homeKey => exact setHighlightIndex_invariant cfg host s 0
  | endKey => exact setHighlightIndex_invariant cfg host s _
  | setIdx i => exact setHighlightIndex_invariant cfg host s i
  | setIdStr t => exact setHighlightId_invariant cfg host l s t hl

theorem run_invariant (cfg : Config) (host : HostD) (l : List Elem)
    (hl : host.listEl = some l) :
    ∀ (ops : List Op) (s : NavState), IdMatchesIndex cfg host s →
      IdMatchesIndex cfg host (run cfg host s ops) := by
  intro ops
  induction ops with
  | nil => intro s hs; exact hs
  | cons op rest ih =>
    intro s hs
    exact ih _ (applyOp_invariant cfg host l s op hl hs)

/-- C4 counterexample: the state reached from the initial state by
`setHighlightIndex(5)` on the three-item list has `index = 5 ≠ -1` while no
item is highlighted (no role-matched item occupies position `5`, the stored
id is `undefined`), refuting the claimed "index == -1 exactly when no item is
highlighted". -/
theorem c4_counterexample :
    (run cfgAll hostABC (initState true false) [Op.setIdx 5]).index = some 5 ∧
    (run cfgAll hostABC (initState true false) [Op.setIdx 5]).id = none ∧
    highlightedItem cfgAll hostABC (run cfgAll hostABC (initState true false) [Op.setIdx 5])
      = none :=
  ⟨rfl, rfl, rfl⟩

/-- C4 (amended): in every state reachable from the initial state by any
sequence of navigator operations over an unchanged, present host list,
`index = -1` implies no item is highlighted, and whenever the stored index is
a non-negative number the stored id equals the identifier of the role-matched
item occupying that position (and is `undefined` when no item occupies it);
the converse of the first part fails, since an out-of-range index also
highlights nothing. -/
theorem c4_invariant (cfg : Config) (host : HostD) (l : List Elem) (sc fo : Bool)
    (ops : List Op) (hl : host.listEl = some l) :
    (∀ i : Int, (run cfg host (initState sc fo) ops).index = some i → 0 ≤ i →
      (run cfg host (initState sc fo) ops).id = (_getItemId cfg host i).1) ∧
    ((run cfg host (initState sc fo) ops).index = some (-1) →
      highlightedItem cfg host (run cfg host (initState sc fo) ops) = none) := by
  constructor
  · exact run_invariant cfg host l hl ops (initState sc fo) (fun i hi h0 => by
      have h1 : some (-1) = some i := hi
      injection h1 with h1
      omega)
  · intro hneg
    unfold highlightedItem
    rw [hneg]
    exact getItemId_neg cfg host (-1) (by norm_num)

/-- C4 witness: after `onDownKey` then `setHighlightId("b")` on the three-item
list the index is `1`, and the invariant instance yields the stored id
`_getItemId(1)` (= `"b"`). -/
theorem c4_invariant_witness :
    (run cfgAll hostABC (initState true false) [Op.downKey, Op.setIdStr "b"]).id
      = (_getItemId cfgAll hostABC 1).1 ∧
    (_getItemId cfgAll hostABC 1).1 = some "b" := by
  have h := c4_invariant cfgAll hostABC listABC true false [Op.downKey, Op.setIdStr "b"] rfl
  exact ⟨h.1 1 rfl (by norm_num), rfl⟩

/-- C5 counterexample: in `listDup` the sole role-matched item — position `0`
among the role-matched items — has id `x`, yet `setHighlightId("x")` stores
index `-1` (not `0`): `querySelector('#x')` finds the earlier
non-role-matched element carrying the same id, and `indexOf` rejects it. -/
theorem c5_counterexample :
    (roleItems "option" listDup).get? 0 = some ⟨"x", "option"⟩ ∧
    (setHighlightId cfgAll hostDup (initState true false) "x").1.index = some (-1) ∧
    (setHighlightId cfgAll hostDup (initState true false) "x").1.id = some "x" :=
  ⟨rfl, rfl, rfl⟩

/-- C5 (amended): if the first element of the host list carrying identifier
`t` is exactly the role-matched item at position `k` — guaranteed in
particular when ids are unique in the list — then `setHighlightId(t)` stores
index `k` and id `t`. The hypotheses entail that `t` is the identifier of the
role-matched item at position `k`, which is restated in the conclusion. -/
theorem c5_setHighlightId (cfg : Config) (host : HostD) (l : List Elem) (s : NavState)
    (t : String) (k p : Nat) (hl : host.listEl = some l)
    (hfirst : querySelectorId t l = some p)
    (hrole : (rolePositions cfg.listItemRole l).get? k = some p) :
    ((roleItems cfg.listItemRole l).get? k).map Elem.id = some t ∧
    (setHighlightId cfg host s t).1.index = some (k : Int) ∧
    (setHighlightId cfg host s t).1.id = some t := by
  obtain ⟨e, he, heid⟩ := querySelectorId_spec t l p hfirst
  refine ⟨?_, ?_, rfl⟩
  · rw [← rolePositions_get?_bind cfg.listItemRole l k, hrole]
    simp only [Option.some_bind]
    rw [he, Option.map_some', heid]
  · show (_getItemIndex cfg host t).1 = some (k : Int)
    rw [getItemIndex_found cfg host l t p hl hfirst]
    rw [jsIndexOf_nodup p (rolePositions cfg.listItemRole l) k
      (rolePositions_nodup cfg.listItemRole l) hrole]

/-- C5 witness: on the three-item list, `setHighlightId("b")` stores index `1`
and id `b`. -/
theorem c5_setHighlightId_witness :
    (setHighlightId cfgAll hostABC (initState true false) "b").1.index = some 1 ∧
    (setHighlightId cfgAll hostABC (initState true false) "b").1.id = some "b" := by
  have h := c5_setHighlightId cfgAll hostABC listABC (initState true false) "b" 1 1
    rfl rfl rfl
  exact ⟨h.2.1, h.2.2⟩

end DialtoneNav
